import Mathlib

/-!
Shallow embedding of the Reality Defender Go SDK result-polling core:
the result formatter (`FormatResult`), the mode-A bounded-attempts poll
loop (`getDetectionResult`), the mode-B event-driven poll loop
(`pollForResults` / `PollForResults`), the event dispatcher (`On` /
`emit`), and the HTTP error-code mapping of `handleResponse`.

Scores are modelled as rationals; Go `*float64` becomes `Option ℚ`.
The transport and the cancellation context are modelled as an
environment: a stream of fetch outcomes indexed by the fetch counter and
a stream of booleans indexed by the cancellation-checkpoint counter.
Each run also returns a chronological trace of observable actions
(fetches, context checks, event emissions).
-/

namespace RDSDK

/-- Error codes of the SDK error taxonomy (errors.go). -/
inductive ErrorCode where
  | unauthorized
  | invalidRequest
  | serverError
  | timeout
  | invalidFile
  | fileTooLarge
  | uploadFailed
  | notFound
  | unknownError
deriving DecidableEq

/-- SDKError: message plus a code (errors.go). -/
structure SDKError where
  message : String
  code : ErrorCode
deriving DecidableEq

/-- A Go `error` value as seen by the poll engine: a typed `*SDKError`,
the cancellation error `ctx.Err()`, or a plain `errors.New` error. -/
inductive GoErr where
  | sdk (e : SDKError)
  | ctxCanceled
  | plain (msg : String)
deriving DecidableEq

/-- Models `errors.As(err, &sdkErr) && sdkErr.Code == ErrorCodeNotFound`. -/
def isNotFoundErr : GoErr → Bool
  | .sdk e => e.code = ErrorCode.notFound
  | _ => false

/-- ModelResult (types.go): one detector's verdict. -/
structure ModelResult where
  name : String
  status : String
  score : Option ℚ
deriving DecidableEq

/-- DetectionResult (types.go): the normalized result returned to the user. -/
structure DetectionResult where
  requestID : String
  status : String
  score : Option ℚ
  models : List ModelResult
deriving DecidableEq

/-- One raw model entry of a MediaResponse (detection.go). -/
structure RawModel where
  name : String
  status : String
  finalScore : Option ℚ
deriving DecidableEq

/-- The fields of the raw MediaResponse that FormatResult consumes
(detection.go): requestId, resultsSummary.status,
resultsSummary.metadata.finalScore, and the model entries. -/
structure MediaResponse where
  requestID : String
  summaryStatus : String
  finalScore : Option ℚ
  models : List RawModel
deriving DecidableEq

/-- Score normalization of FormatResult: a value greater than 1 is assumed
to be on a 0-100 scale and divided by 100. -/
def normalizeScore (v : ℚ) : ℚ :=
  if v > 1 then v / 100 else v

/-- Status rewrite of FormatResult: the literal "FAKE" becomes
"MANIPULATED", everything else passes through. -/
def rewriteStatus (s : String) : String :=
  if s = "FAKE" then "MANIPULATED" else s

/-- FormatResult (detection.go): formats the raw API response into a
user-friendly DetectionResult. -/
def FormatResult (response : MediaResponse) : DetectionResult :=
  { requestID := response.requestID
    status := rewriteStatus response.summaryStatus
    score := response.finalScore.map normalizeScore
    models := response.models.map fun model =>
      { name := model.name
        status := rewriteStatus model.status
        score := model.finalScore.map normalizeScore } }

/-- The model-scanning loop of getDetectionResult (detection.go): computes
`allModelsAnalyzingOrNA` and `hasAnalyzingModels`, with the loop's `break`
as soon as a model is neither ANALYZING nor NOT_APPLICABLE. The
accumulator is the current value of `hasAnalyzingModels`. -/
def modelsScan : List ModelResult → Bool → Bool × Bool
  | [], has => (true, has)
  | m :: rest, has =>
    if m.status ≠ "ANALYZING" ∧ m.status ≠ "NOT_APPLICABLE" then
      (false, has)
    else
      modelsScan rest (has || m.status = "ANALYZING")

/-- The still-pending classification of getDetectionResult: continue
polling if the overall status is ANALYZING, or all models are
ANALYZING/NOT_APPLICABLE and at least one is ANALYZING. -/
def stillPending (result : DetectionResult) : Bool :=
  let isAnalyzing := result.status = "ANALYZING"
  let scan := modelsScan result.models false
  isAnalyzing || (scan.1 && scan.2)

/-- Outcome of one call to `client.get` followed by `json.Unmarshal`:
a transport error, a payload that fails to parse, or a parsed payload. -/
inductive FetchStep where
  | fetchErr (e : GoErr)
  | badJson
  | ok (m : MediaResponse)
deriving DecidableEq

/-- The environment of a poll run: `fetch n` is the outcome of the n-th
call to `client.get` (0-indexed), `ctxDone n` is what the n-th
observation of `ctx.Done()` reports. -/
structure Env where
  fetch : Nat → FetchStep
  ctxDone : Nat → Bool

/-- Observable actions of a poll run, in chronological order. -/
inductive Action where
  | fetch
  | check (done : Bool)
  | emitResult (r : DetectionResult)
  | emitError (e : GoErr)
deriving DecidableEq

/-- Events extracted from a trace: "result" and "error" emissions. -/
def eventsOf : List Action → List (String × Option DetectionResult × Option GoErr)
  | [] => []
  | .emitResult r :: rest => ("result", some r, none) :: eventsOf rest
  | .emitError e :: rest => ("error", none, some e) :: eventsOf rest
  | _ :: rest => eventsOf rest

/-- Whether a trace contains an observation of `ctx.Done()` firing. -/
def hasDoneCheck : List Action → Bool
  | [] => false
  | .check true :: _ => true
  | _ :: rest => hasDoneCheck rest

/-- Checks that no fetch occurs after a `ctx.Done()` observation fired;
the flag records whether such an observation has already been seen. -/
def noFetchAfterDone : Bool → List Action → Bool
  | _, [] => true
  | seen, a :: rest =>
    match a with
    | .fetch => if seen then false else noFetchAfterDone seen rest
    | .check done => noFetchAfterDone (seen || done) rest
    | _ => noFetchAfterDone seen rest

/-- GetResultOptions (types.go). `PollingInterval` only affects real
time, never the decision logic. -/
structure GetResultOptions where
  maxAttempts : Int
  pollingInterval : Int
deriving DecidableEq

/-- Default polling attempts, `defaultMaxAttempts` (detection.go). -/
def defaultMaxAttempts : Int := 30

/-- DefaultPollingInterval in milliseconds (errors.go constants). -/
def DefaultPollingInterval : Int := 2000

/-- DefaultTimeout in milliseconds (errors.go constants). -/
def DefaultTimeout : Int := 60000

/-- Outcome of getDetectionResult: a DetectionResult or a Go error. -/
inductive AOut where
  | ok (r : DetectionResult)
  | err (e : GoErr)
deriving DecidableEq

/-- Result of a mode-A run: the returned value, whether the post-loop
"exceeded maximum number of polling attempts" branch was taken, the final
fetch and checkpoint counters, and the action trace. -/
structure ARun where
  out : AOut
  postLoop : Bool
  nf : Nat
  nc : Nat
  tr : List Action
deriving DecidableEq

/-- The SDKError synthesized after the mode-A loop (detection.go). -/
def exceededAttemptsErr : SDKError :=
  { message := "exceeded maximum number of polling attempts", code := ErrorCode.timeout }

/-- The SDKError produced when a payload fails to parse (detection.go). -/
def parseFailureErr : SDKError :=
  { message := "failed to parse result response", code := ErrorCode.unknownError }

/-- The polling loop of getDetectionResult (detection.go). The Go loop
runs `for attempt < maxAttempts` with `attempt` incremented on every
continue path, so it is parametrized here by `remaining = maxAttempts -
attempt`; the Go guard `attempt+1 >= maxAttempts` after an increment is
`remaining = 1`, i.e. `r = 0` under `remaining = r + 1`. The `remaining =
0` base case is the post-loop branch returning a timeout SDKError. -/
def loopA (env : Env) : Nat → Nat → Nat → ARun
  | 0, nf, nc =>
    { out := .err (.sdk exceededAttemptsErr), postLoop := true, nf := nf, nc := nc, tr := [] }
  | r + 1, nf, nc =>
    match env.fetch nf with
    | .fetchErr e =>
      if isNotFoundErr e then
        if r = 0 then
          { out := .err e, postLoop := false, nf := nf + 1, nc := nc, tr := [.fetch] }
        else if env.ctxDone nc then
          { out := .err .ctxCanceled, postLoop := false, nf := nf + 1, nc := nc + 1,
            tr := [.fetch, .check true] }
        else
          let rest := loopA env r (nf + 1) (nc + 1)
          { rest with tr := Action.fetch :: Action.check false :: rest.tr }
      else
        { out := .err e, postLoop := false, nf := nf + 1, nc := nc, tr := [.fetch] }
    | .badJson =>
      { out := .err (.sdk parseFailureErr), postLoop := false, nf := nf + 1, nc := nc,
        tr := [.fetch] }
    | .ok resp =>
      let result := FormatResult resp
      if stillPending result then
        if r = 0 then
          { out := .ok result, postLoop := false, nf := nf + 1, nc := nc, tr := [.fetch] }
        else if env.ctxDone nc then
          { out := .err .ctxCanceled, postLoop := false, nf := nf + 1, nc := nc + 1,
            tr := [.fetch, .check true] }
        else
          let rest := loopA env r (nf + 1) (nc + 1)
          { rest with tr := Action.fetch :: Action.check false :: rest.tr }
      else
        { out := .ok result, postLoop := false, nf := nf + 1, nc := nc, tr := [.fetch] }

/-- getDetectionResult (detection.go): defaults non-positive maxAttempts
to 30 and runs the polling loop, starting from the given fetch and
checkpoint counters. -/
def getDetectionResultFrom (env : Env) (options : GetResultOptions) (nf nc : Nat) : ARun :=
  let maxAttempts : Int :=
    if options.maxAttempts ≤ 0 then defaultMaxAttempts else options.maxAttempts
  loopA env maxAttempts.toNat nf nc

/-- A full mode-A call, counters starting at zero. -/
def getDetectionResultFn (env : Env) (options : GetResultOptions) : ARun :=
  getDetectionResultFrom env options 0 0

/-- PollOptions (types.go). -/
structure PollOptions where
  pollingInterval : Int
  timeout : Int
deriving DecidableEq

/-- Outcome of pollForResults: a nil error, a Go error, or fuel
exhaustion (the Go loop would run forever, which only happens when the
internal function is entered with a non-positive polling interval). -/
inductive BOut where
  | success
  | errored (e : GoErr)
  | outOfFuel
deriving DecidableEq

/-- Result of a mode-B run: returned value, final counters, trace. -/
structure BRun where
  out : BOut
  nf : Nat
  nc : Nat
  tr : List Action
deriving DecidableEq

/-- The SDKError emitted on polling timeout (client.go). -/
def pollTimeoutErr : SDKError :=
  { message := "Polling timeout exceeded", code := ErrorCode.timeout }

/-- The loop of pollForResults (client.go): while `elapsed <
maxWaitTime`, check `ctx.Done()` non-blockingly, then call GetResult with
nil options; a not_found error or an ANALYZING result adds
`pollingInterval` to `elapsed`, sleeps uninterruptibly and continues; any
other error is emitted as an "error" event and returned; a final result
is emitted as a "result" event and the call returns nil; leaving the loop
without a completed result emits and returns a timeout SDKError. -/
def loopB (env : Env) (pollingInterval maxWaitTime : Int) :
    Nat → Int → Nat → Nat → BRun
  | 0, _, nf, nc => { out := .outOfFuel, nf := nf, nc := nc, tr := [] }
  | fuel + 1, elapsed, nf, nc =>
    if elapsed < maxWaitTime then
      if env.ctxDone nc then
        { out := .errored .ctxCanceled, nf := nf, nc := nc + 1, tr := [.check true] }
      else
        let a := getDetectionResultFrom env ⟨0, 0⟩ nf (nc + 1)
        match a.out with
        | .err e =>
          if isNotFoundErr e then
            let rest := loopB env pollingInterval maxWaitTime fuel
              (elapsed + pollingInterval) a.nf a.nc
            { rest with tr := Action.check false :: a.tr ++ rest.tr }
          else
            { out := .errored e, nf := a.nf, nc := a.nc,
              tr := Action.check false :: a.tr ++ [Action.emitError e] }
        | .ok result =>
          if result.status = "ANALYZING" then
            let rest := loopB env pollingInterval maxWaitTime fuel
              (elapsed + pollingInterval) a.nf a.nc
            { rest with tr := Action.check false :: a.tr ++ rest.tr }
          else
            { out := .success, nf := a.nf, nc := a.nc,
              tr := Action.check false :: a.tr ++ [Action.emitResult result] }
    else
      { out := .errored (.sdk pollTimeoutErr), nf := nf, nc := nc,
        tr := [.emitError (.sdk pollTimeoutErr)] }

/-- The internal pollForResults (client.go): a non-positive timeout at
entry emits an "error" event carrying an SDKError with code timeout and
returns a distinct plain error built by `errors.New`; otherwise the loop
runs from `elapsed = 0`. Fuel `timeout.toNat + 1` is enough whenever the
polling interval is at least 1. -/
def pollForResultsFn (env : Env) (pollingInterval timeout : Int) : BRun :=
  if timeout ≤ 0 then
    { out := .errored (.plain "polling timeout exceeded"), nf := 0, nc := 0,
      tr := [.emitError (.sdk pollTimeoutErr)] }
  else
    loopB env pollingInterval timeout (timeout.toNat + 1) 0 0 0

/-- The public PollForResults (client.go): non-positive PollingInterval
and Timeout options are replaced by the 2000ms and 60000ms defaults, then
the internal pollForResults runs. -/
def PollForResultsFn (env : Env) (options : Option PollOptions) : BRun :=
  let pollingInterval :=
    match options with
    | some o => if o.pollingInterval > 0 then o.pollingInterval else DefaultPollingInterval
    | none => DefaultPollingInterval
  let timeout :=
    match options with
    | some o => if o.timeout > 0 then o.timeout else DefaultTimeout
    | none => DefaultTimeout
  pollForResultsFn env pollingInterval timeout

/-- The handler registry of a Client (client.go): a map from event name
to the ordered list of registered handlers, modelled as an association
list in name-creation order. -/
def Handlers (α : Type) : Type := List (String × List α)

/-- Looks an event name up in the registry, as Go `handlers[event]`. -/
def findHandlers {α : Type} : Handlers α → String → Option (List α)
  | [], _ => none
  | (name, hs) :: rest, event => if name = event then some hs else findHandlers rest event

/-- On (client.go): appends the handler to the list for the event,
creating an empty list first when the event has no entry. -/
def On {α : Type} (registry : Handlers α) (event : String) (handler : α) : Handlers α :=
  match registry with
  | [] => [(event, [handler])]
  | (name, hs) :: rest =>
    if name = event then (name, hs ++ [handler]) :: rest
    else (name, hs) :: On rest event handler

/-- emit (client.go): the sequence of handler invocations performed, in
order, each paired with the payload; an unregistered event name produces
no invocation. -/
def emitRun {α β : Type} (registry : Handlers α) (event : String) (payload : β) :
    List (α × β) :=
  match findHandlers registry event with
  | none => []
  | some hs => hs.map fun h => (h, payload)

/-- The error-code mapping of handleResponse (client.go) for a non-2xx
HTTP status code. -/
def handleResponseCode (statusCode : Int) : ErrorCode :=
  if statusCode = 401 then ErrorCode.unauthorized
  else if statusCode = 404 then ErrorCode.notFound
  else if statusCode = 500 then ErrorCode.serverError
  else ErrorCode.unknownError

end RDSDK

namespace RDSDK

/-- Events distribute over trace concatenation. -/
lemma eventsOf_append (t1 t2 : List Action) :
    eventsOf (t1 ++ t2) = eventsOf t1 ++ eventsOf t2 := by
  induction t1 with
  | nil => rfl
  | cons a rest ih =>
    cases a <;> simp [eventsOf, ih]

/-- The no-fetch-after-cancellation check distributes over concatenation. -/
lemma noFetchAfterDone_append (b : Bool) (t1 t2 : List Action) :
    noFetchAfterDone b (t1 ++ t2)
      = (noFetchAfterDone b t1 && noFetchAfterDone (b || hasDoneCheck t1) t2) := by
  induction t1 generalizing b with
  | nil => simp [noFetchAfterDone, hasDoneCheck]
  | cons a rest ih =>
    cases a with
    | fetch =>
      cases b <;> simp [noFetchAfterDone, hasDoneCheck, ih]
    | check done =>
      cases done <;> cases b <;> simp [noFetchAfterDone, hasDoneCheck, ih]
    | emitResult r => simp [noFetchAfterDone, hasDoneCheck, ih]
    | emitError e => simp [noFetchAfterDone, hasDoneCheck, ih]

/-- A trace with no fetch passes the check under any flag. -/
lemma noFetchAfterDone_of_no_fetch (b : Bool) (t : List Action)
    (h : ∀ a ∈ t, a ≠ Action.fetch) : noFetchAfterDone b t = true := by
  induction t generalizing b with
  | nil => rfl
  | cons a rest ih =>
    cases a with
    | fetch => exact absurd rfl (h Action.fetch (List.mem_cons_self _ _))
    | check done => exact ih _ fun x hx => h x (List.mem_cons_of_mem _ hx)
    | emitResult r => exact ih _ fun x hx => h x (List.mem_cons_of_mem _ hx)
    | emitError e => exact ih _ fun x hx => h x (List.mem_cons_of_mem _ hx)

/-- The mode-A loop emits no event: its trace holds only fetches and
context checks. -/
lemma loopA_events (env : Env) (r nf nc : Nat) :
    eventsOf (loopA env r nf nc).tr = [] := by
  induction r generalizing nf nc with
  | zero => simp [loopA, eventsOf]
  | succ r ih =>
    cases hf : env.fetch nf with
    | fetchErr e =>
      by_cases hnf : isNotFoundErr e
      · rcases Nat.eq_zero_or_pos r with hr | hr
        · simp [loopA, hf, hnf, hr, eventsOf]
        · by_cases hc : env.ctxDone nc
          · simp [loopA, hf, hnf, Nat.pos_iff_ne_zero.mp hr, hc, eventsOf]
          · simp [loopA, hf, hnf, Nat.pos_iff_ne_zero.mp hr, hc, eventsOf, ih]
      · simp [loopA, hf, hnf, eventsOf]
    | badJson => simp [loopA, hf, eventsOf]
    | ok resp =>
      by_cases hp : stillPending (FormatResult resp)
      · rcases Nat.eq_zero_or_pos r with hr | hr
        · simp [loopA, hf, hp, hr, eventsOf]
        · by_cases hc : env.ctxDone nc
          · simp [loopA, hf, hp, Nat.pos_iff_ne_zero.mp hr, hc, eventsOf]
          · simp [loopA, hf, hp, Nat.pos_iff_ne_zero.mp hr, hc, eventsOf, ih]
      · simp [loopA, hf, hp, eventsOf]


/-- The post-loop "exceeded maximum number of polling attempts" branch is
taken only when the loop starts with no remaining attempts. -/
lemma loopA_postLoop (env : Env) (r nf nc : Nat) (h : 1 ≤ r) :
    (loopA env r nf nc).postLoop = false := by
  induction r generalizing nf nc with
  | zero => omega
  | succ r ih =>
    cases hf : env.fetch nf with
    | fetchErr e =>
      by_cases hnf : isNotFoundErr e
      · rcases Nat.eq_zero_or_pos r with hr | hr
        · simp [loopA, hf, hnf, hr]
        · by_cases hc : env.ctxDone nc
          · simp [loopA, hf, hnf, Nat.pos_iff_ne_zero.mp hr, hc]
          · simp [loopA, hf, hnf, Nat.pos_iff_ne_zero.mp hr, hc, ih _ _ hr]
      · simp [loopA, hf, hnf]
    | badJson => simp [loopA, hf]
    | ok resp =>
      by_cases hp : stillPending (FormatResult resp)
      · rcases Nat.eq_zero_or_pos r with hr | hr
        · simp [loopA, hf, hp, hr]
        · by_cases hc : env.ctxDone nc
          · simp [loopA, hf, hp, Nat.pos_iff_ne_zero.mp hr, hc]
          · simp [loopA, hf, hp, Nat.pos_iff_ne_zero.mp hr, hc, ih _ _ hr]
      · simp [loopA, hf, hp]

/-- Once a context check observes cancellation, the mode-A loop performs
no further fetch. -/
lemma loopA_noFetchAfterDone (env : Env) (r nf nc : Nat) :
    noFetchAfterDone false (loopA env r nf nc).tr = true := by
  induction r generalizing nf nc with
  | zero => simp [loopA, noFetchAfterDone]
  | succ r ih =>
    cases hf : env.fetch nf with
    | fetchErr e =>
      by_cases hnf : isNotFoundErr e
      · rcases Nat.eq_zero_or_pos r with hr | hr
        · simp [loopA, hf, hnf, hr, noFetchAfterDone]
        · by_cases hc : env.ctxDone nc
          · simp [loopA, hf, hnf, Nat.pos_iff_ne_zero.mp hr, hc, noFetchAfterDone]
          · simp [loopA, hf, hnf, Nat.pos_iff_ne_zero.mp hr, hc, noFetchAfterDone, ih]
      · simp [loopA, hf, hnf, noFetchAfterDone]
    | badJson => simp [loopA, hf, noFetchAfterDone]
    | ok resp =>
      by_cases hp : stillPending (FormatResult resp)
      · rcases Nat.eq_zero_or_pos r with hr | hr
        · simp [loopA, hf, hp, hr, noFetchAfterDone]
        · by_cases hc : env.ctxDone nc
          · simp [loopA, hf, hp, Nat.pos_iff_ne_zero.mp hr, hc, noFetchAfterDone]
          · simp [loopA, hf, hp, Nat.pos_iff_ne_zero.mp hr, hc, noFetchAfterDone, ih]
      · simp [loopA, hf, hp, noFetchAfterDone]

/-- A mode-A trace contains a fired cancellation check only when the loop
returned the cancellation error. -/
lemma loopA_hasDone (env : Env) (r nf nc : Nat)
    (h : hasDoneCheck (loopA env r nf nc).tr = true) :
    (loopA env r nf nc).out = .err .ctxCanceled := by
  induction r generalizing nf nc with
  | zero => simp [loopA, hasDoneCheck] at h
  | succ r ih =>
    cases hf : env.fetch nf with
    | fetchErr e =>
      by_cases hnf : isNotFoundErr e
      · rcases Nat.eq_zero_or_pos r with hr | hr
        · rw [loopA] at h; simp [hf, hnf, hr, hasDoneCheck] at h
        · by_cases hc : env.ctxDone nc
          · simp [loopA, hf, hnf, Nat.pos_iff_ne_zero.mp hr, hc]
          · rw [loopA] at h ⊢
            simp only [hf, hnf, Nat.pos_iff_ne_zero.mp hr, hc] at h ⊢
            simp only [if_true, if_false, ite_false, hasDoneCheck] at h ⊢
            exact ih _ _ h
      · rw [loopA] at h; simp [hf, hnf, hasDoneCheck] at h
    | badJson => rw [loopA] at h; simp [hf, hasDoneCheck] at h
    | ok resp =>
      by_cases hp : stillPending (FormatResult resp)
      · rcases Nat.eq_zero_or_pos r with hr | hr
        · rw [loopA] at h; simp [hf, hp, hr, hasDoneCheck] at h
        · by_cases hc : env.ctxDone nc
          · simp [loopA, hf, hp, Nat.pos_iff_ne_zero.mp hr, hc]
          · rw [loopA] at h ⊢
            simp only [hf, hp, Nat.pos_iff_ne_zero.mp hr, hc] at h ⊢
            simp only [if_true, if_false, ite_false, hasDoneCheck] at h ⊢
            exact ih _ _ h
      · rw [loopA] at h; simp [hf, hp, hasDoneCheck] at h


/-- When every transport error carries a non-timeout code, every SDKError
returned by the mode-A loop entered with attempts remaining has a
non-timeout code. -/
lemma loopA_not_timeout (env : Env)
    (henv : ∀ n e, env.fetch n = .fetchErr (.sdk e) → e.code ≠ ErrorCode.timeout)
    (r nf nc : Nat) (hr : 1 ≤ r) :
    ∀ e, (loopA env r nf nc).out = .err (.sdk e) → e.code ≠ ErrorCode.timeout := by
  induction r generalizing nf nc with
  | zero => omega
  | succ r ih =>
    intro e hout
    cases hf : env.fetch nf with
    | fetchErr e0 =>
      by_cases hnf : isNotFoundErr e0
      · rcases Nat.eq_zero_or_pos r with hr0 | hr0
        · rw [loopA] at hout; simp [hf, hnf, hr0] at hout
          cases e0 with
          | sdk e1 =>
            cases hout
            exact henv nf e (by rw [hf])
          | ctxCanceled => simp [isNotFoundErr] at hnf
          | plain m => simp [isNotFoundErr] at hnf
        · by_cases hc : env.ctxDone nc
          · rw [loopA] at hout
            simp [hf, hnf, Nat.pos_iff_ne_zero.mp hr0, hc] at hout
          · rw [loopA] at hout
            simp only [hf, hnf, Nat.pos_iff_ne_zero.mp hr0, hc, if_true, if_false,
              ite_false] at hout
            exact ih _ _ hr0 e hout
      · rw [loopA] at hout; simp [hf, hnf] at hout
        cases e0 with
        | sdk e1 =>
          cases hout
          exact henv nf e (by rw [hf])
        | ctxCanceled => simp at hout
        | plain m => simp at hout
    | badJson =>
      rw [loopA] at hout; simp [hf] at hout
      rw [hout.symm]
      simp [parseFailureErr]
    | ok resp =>
      by_cases hp : stillPending (FormatResult resp)
      · rcases Nat.eq_zero_or_pos r with hr0 | hr0
        · rw [loopA] at hout; simp [hf, hp, hr0] at hout
        · by_cases hc : env.ctxDone nc
          · rw [loopA] at hout
            simp [hf, hp, Nat.pos_iff_ne_zero.mp hr0, hc] at hout
          · rw [loopA] at hout
            simp only [hf, hp, Nat.pos_iff_ne_zero.mp hr0, hc, if_true, if_false,
              ite_false] at hout
            exact ih _ _ hr0 e hout
      · rw [loopA] at hout; simp [hf, hp] at hout


/-- When every fetch succeeds with a still-pending payload and the
context never fires, the mode-A loop performs exactly the remaining
number of fetches and returns the last formatted result successfully. -/
lemma loopA_all_pending (env : Env)
    (hfetch : ∀ n, ∃ resp, env.fetch n = .ok resp ∧ stillPending (FormatResult resp) = true)
    (hctx : ∀ n, env.ctxDone n = false) :
    ∀ r nf nc, 1 ≤ r →
      (loopA env r nf nc).nf = nf + r ∧
      ∃ resp, env.fetch (nf + r - 1) = .ok resp ∧
        (loopA env r nf nc).out = .ok (FormatResult resp) := by
  intro r
  induction r with
  | zero => omega
  | succ r ih =>
    intro nf nc _
    obtain ⟨resp, hf, hp⟩ := hfetch nf
    rcases Nat.eq_zero_or_pos r with hr0 | hr0
    · subst hr0
      refine ⟨by simp [loopA, hf, hp], resp, by simpa using hf, ?_⟩
      simp [loopA, hf, hp]
    · obtain ⟨ihn, resp1, ihf, ihout⟩ := ih (nf + 1) (nc + 1) hr0
      refine ⟨?_, resp1, ?_, ?_⟩
      · rw [loopA]
        simp [hf, hp, Nat.pos_iff_ne_zero.mp hr0, hctx nc]
        omega
      · have : nf + 1 + r - 1 = nf + (r + 1) - 1 := by omega
        rw [this] at ihf; exact ihf
      · rw [loopA]
        simp [hf, hp, Nat.pos_iff_ne_zero.mp hr0, hctx nc]
        exact ihout

/-- When every fetch fails with a not_found SDKError and the context
never fires, the mode-A loop performs exactly the remaining number of
fetches and returns the last not_found error itself. -/
lemma loopA_all_notFound (env : Env)
    (hfetch : ∀ n, ∃ e, env.fetch n = .fetchErr (.sdk e) ∧ e.code = ErrorCode.notFound)
    (hctx : ∀ n, env.ctxDone n = false) :
    ∀ r nf nc, 1 ≤ r →
      (loopA env r nf nc).nf = nf + r ∧
      ∃ e, env.fetch (nf + r - 1) = .fetchErr (.sdk e) ∧
        (loopA env r nf nc).out = .err (.sdk e) ∧ e.code = ErrorCode.notFound := by
  intro r
  induction r with
  | zero => omega
  | succ r ih =>
    intro nf nc _
    obtain ⟨e, hf, hcode⟩ := hfetch nf
    have hnf : isNotFoundErr (GoErr.sdk e) = true := by simp [isNotFoundErr, hcode]
    rcases Nat.eq_zero_or_pos r with hr0 | hr0
    · subst hr0
      refine ⟨by simp [loopA, hf, hnf], e, by simpa using hf, ?_, hcode⟩
      simp [loopA, hf, hnf]
    · obtain ⟨ihn, e1, ihf, ihout, ihcode⟩ := ih (nf + 1) (nc + 1) hr0
      refine ⟨?_, e1, ?_, ?_, ihcode⟩
      · rw [loopA]
        simp [hf, hnf, Nat.pos_iff_ne_zero.mp hr0, hctx nc]
        omega
      · have : nf + 1 + r - 1 = nf + (r + 1) - 1 := by omega
        rw [this] at ihf; exact ihf
      · rw [loopA]
        simp [hf, hnf, Nat.pos_iff_ne_zero.mp hr0, hctx nc]
        exact ihout


/-- getDetectionResult emits no event. -/
lemma getFrom_events (env : Env) (o : GetResultOptions) (nf nc : Nat) :
    eventsOf (getDetectionResultFrom env o nf nc).tr = [] :=
  loopA_events env _ nf nc

/-- getDetectionResult performs no fetch after observed cancellation. -/
lemma getFrom_noFetchAfterDone (env : Env) (o : GetResultOptions) (nf nc : Nat) :
    noFetchAfterDone false (getDetectionResultFrom env o nf nc).tr = true :=
  loopA_noFetchAfterDone env _ nf nc

/-- A getDetectionResult trace observes cancellation only when the call
returned the cancellation error. -/
lemma getFrom_hasDone (env : Env) (o : GetResultOptions) (nf nc : Nat)
    (h : hasDoneCheck (getDetectionResultFrom env o nf nc).tr = true) :
    (getDetectionResultFrom env o nf nc).out = .err .ctxCanceled :=
  loopA_hasDone env _ nf nc h

/-- The mode-B loop performs no fetch after a context check observes
cancellation, including fetches of the nested GetResult calls. -/
lemma loopB_noFetchAfterDone (env : Env) (i mw : Int) :
    ∀ fuel el nf nc, noFetchAfterDone false (loopB env i mw fuel el nf nc).tr = true := by
  intro fuel
  induction fuel with
  | zero => intro el nf nc; simp [loopB, noFetchAfterDone]
  | succ fuel ih =>
    intro el nf nc
    by_cases hel : el < mw
    · by_cases hc : env.ctxDone nc
      · simp [loopB, hel, hc, noFetchAfterDone]
      · have hclean := getFrom_noFetchAfterDone env ⟨0, 0⟩ nf (nc + 1)
        cases hout : (getDetectionResultFrom env ⟨0, 0⟩ nf (nc + 1)).out with
        | err e =>
          have hnotdone : hasDoneCheck (getDetectionResultFrom env ⟨0, 0⟩ nf (nc + 1)).tr
              = false ∨ e = GoErr.ctxCanceled := by
            by_cases hd : hasDoneCheck (getDetectionResultFrom env ⟨0, 0⟩ nf (nc + 1)).tr = true
            · right
              have := getFrom_hasDone env ⟨0, 0⟩ nf (nc + 1) hd
              rw [hout] at this
              exact (AOut.err.injEq _ _).mp this
            · left; exact Bool.not_eq_true _ |>.mp hd
          by_cases hnf : isNotFoundErr e
          · have hd : hasDoneCheck (getDetectionResultFrom env ⟨0, 0⟩ nf (nc + 1)).tr = false := by
              rcases hnotdone with h | h
              · exact h
              · rw [h] at hnf; simp [isNotFoundErr] at hnf
            simp only [loopB, hel, if_true, hc]
            simp only [Bool.false_eq_true, if_false, hout, hnf, if_true]
            simp only [noFetchAfterDone, List.append_eq, noFetchAfterDone_append, hd, hclean,
              Bool.false_or, Bool.true_and]
            exact ih _ _ _
          · simp only [loopB, hel, if_true, hc]
            simp only [Bool.false_eq_true, if_false, hout, hnf]
            simp only [noFetchAfterDone, List.append_eq, noFetchAfterDone_append, hclean,
              Bool.true_and]
            simp [noFetchAfterDone, hclean]
        | ok result =>
          have hd : hasDoneCheck (getDetectionResultFrom env ⟨0, 0⟩ nf (nc + 1)).tr = false := by
            by_cases hd : hasDoneCheck (getDetectionResultFrom env ⟨0, 0⟩ nf (nc + 1)).tr = true
            · have := getFrom_hasDone env ⟨0, 0⟩ nf (nc + 1) hd
              rw [hout] at this
              cases this
            · exact Bool.not_eq_true _ |>.mp hd
          by_cases hst : result.status = "ANALYZING"
          · simp only [loopB, hel, if_true, hc]
            simp only [Bool.false_eq_true, if_false, hout, hst, if_true]
            simp only [noFetchAfterDone, List.append_eq, noFetchAfterDone_append, hd, hclean,
              Bool.false_or, Bool.true_and]
            exact ih _ _ _
          · simp only [loopB, hel, if_true, hc]
            simp only [Bool.false_eq_true, if_false, hout, hst]
            simp only [noFetchAfterDone, List.append_eq, noFetchAfterDone_append, hclean,
              Bool.true_and]
            simp [noFetchAfterDone, hclean]
    · simp [loopB, hel, noFetchAfterDone]


/-- A mode-B run that returns the cancellation error emits either no
event at all or exactly one "error" event carrying that cancellation
error. -/
lemma loopB_cancel_events (env : Env) (i mw : Int) :
    ∀ fuel el nf nc,
      (loopB env i mw fuel el nf nc).out = .errored .ctxCanceled →
      eventsOf (loopB env i mw fuel el nf nc).tr = [] ∨
      eventsOf (loopB env i mw fuel el nf nc).tr
        = [("error", none, some GoErr.ctxCanceled)] := by
  intro fuel
  induction fuel with
  | zero => intro el nf nc hout; simp [loopB] at hout
  | succ fuel ih =>
    intro el nf nc hout
    by_cases hel : el < mw
    · by_cases hc : env.ctxDone nc
      · left; simp [loopB, hel, hc, eventsOf]
      · cases ha : (getDetectionResultFrom env ⟨0, 0⟩ nf (nc + 1)).out with
        | err e =>
          by_cases hnf : isNotFoundErr e
          · rw [loopB] at hout ⊢
            simp only [hel, if_true, hc, Bool.false_eq_true, if_false, ha, hnf] at hout ⊢
            simp only [eventsOf, List.append_eq, eventsOf_append,
              getFrom_events, List.nil_append] at hout ⊢
            exact ih _ _ _ hout
          · rw [loopB] at hout ⊢
            simp only [hel, if_true, hc, Bool.false_eq_true, if_false, ha, hnf] at hout ⊢
            have he : e = GoErr.ctxCanceled := by
              simp at hout
              exact hout
            right
            simp [eventsOf, List.append_eq, eventsOf_append, getFrom_events, he]
        | ok result =>
          by_cases hst : result.status = "ANALYZING"
          · rw [loopB] at hout ⊢
            simp only [hel, if_true, hc, Bool.false_eq_true, if_false, ha, hst] at hout ⊢
            simp only [eventsOf, List.append_eq, eventsOf_append,
              getFrom_events, List.nil_append] at hout ⊢
            exact ih _ _ _ hout
          · rw [loopB] at hout
            simp [hel, hc, ha, hst] at hout
    · rw [loopB] at hout
      simp [hel] at hout


/-- Characterization of the model-scanning loop: its first component says
every model is ANALYZING or NOT_APPLICABLE, and in that case its second
component says the accumulator was set or some model is ANALYZING. -/
lemma modelsScan_char (l : List ModelResult) : ∀ has : Bool,
    ((modelsScan l has).1 = true ↔
      ∀ m ∈ l, m.status = "ANALYZING" ∨ m.status = "NOT_APPLICABLE") ∧
    ((modelsScan l has).1 = true →
      ((modelsScan l has).2 = true ↔
        (has = true ∨ ∃ m ∈ l, m.status = "ANALYZING"))) := by
  induction l with
  | nil => intro has; simp [modelsScan]
  | cons m rest ih =>
    intro has
    by_cases hm : m.status ≠ "ANALYZING" ∧ m.status ≠ "NOT_APPLICABLE"
    · have hred : modelsScan (m :: rest) has = (false, has) := by
        simp [modelsScan, hm]
      refine ⟨?_, ?_⟩
      · rw [hred]
        constructor
        · intro h; simp at h
        · intro hall
          exact absurd (hall m (by simp)) (by tauto)
      · rw [hred]
        intro h; simp at h
    · have hm2 : m.status = "ANALYZING" ∨ m.status = "NOT_APPLICABLE" := by tauto
      have hred : modelsScan (m :: rest) has
          = modelsScan rest (has || decide (m.status = "ANALYZING")) := by
        simp only [modelsScan, hm, if_false]
      obtain ⟨ih1, ih2⟩ := ih (has || decide (m.status = "ANALYZING"))
      refine ⟨?_, ?_⟩
      · rw [hred, ih1]
        constructor
        · intro h x hx
          rcases List.mem_cons.mp hx with hx | hx
          · rw [hx]; exact hm2
          · exact h x hx
        · intro h x hx
          exact h x (List.mem_cons_of_mem _ hx)
      · rw [hred]
        intro hfst
        rw [ih2 hfst]
        simp only [Bool.or_eq_true, decide_eq_true_eq, List.mem_cons]
        constructor
        · rintro ((h | h) | ⟨x, hx, hs⟩)
          · exact Or.inl h
          · exact Or.inr ⟨m, Or.inl rfl, h⟩
          · exact Or.inr ⟨x, Or.inr hx, hs⟩
        · rintro (h | ⟨x, hx | hx, hs⟩)
          · exact Or.inl (Or.inl h)
          · exact Or.inl (Or.inr (hx ▸ hs))
          · exact Or.inr ⟨x, hx, hs⟩


/-- The not_found SDKError the transport produces for HTTP 404. -/
def notFoundSdk : SDKError := { message := "Resource not found", code := ErrorCode.notFound }

/-- A transport that always answers 404 and a context that never fires. -/
def envNF : Env := ⟨fun _ => .fetchErr (.sdk notFoundSdk), fun _ => false⟩

/-- A payload with a terminal AUTHENTIC verdict. -/
def respAuthentic : MediaResponse :=
  { requestID := "req-1", summaryStatus := "AUTHENTIC", finalScore := none,
    models := [{ name := "m1", status := "AUTHENTIC", finalScore := none }] }

/-- A transport that always succeeds with a terminal payload. -/
def envOK : Env := ⟨fun _ => .ok respAuthentic, fun _ => false⟩

/-- A payload that is still being analyzed. -/
def respAnalyzing : MediaResponse :=
  { requestID := "req-1", summaryStatus := "ANALYZING", finalScore := none, models := [] }

/-- A transport that always answers with a still-analyzing payload. -/
def envAnalyzing : Env := ⟨fun _ => .ok respAnalyzing, fun _ => false⟩

/-- A transport answering 404 with a context that fires from the second
checkpoint on: the first fired observation happens inside the nested
GetResult wait of a mode-B poll. -/
def envCancelInner : Env :=
  ⟨fun _ => .fetchErr (.sdk notFoundSdk), fun n => decide (1 ≤ n)⟩

/-- A transport whose fetches fail with a server error. -/
def serverSdk : SDKError := { message := "Server error", code := ErrorCode.serverError }

/-- A transport that always fails with a non-not_found error. -/
def envServerErr : Env := ⟨fun _ => .fetchErr (.sdk serverSdk), fun _ => false⟩

/-- A transport that succeeds at once under a context fired from the
very first checkpoint. -/
def envCancelAtStart : Env := ⟨fun _ => .ok respAuthentic, fun _ => true⟩

/-- Claim C6: mode A classifies a formatted result as still-pending iff
its overall status is ANALYZING, or every model status is ANALYZING or
NOT_APPLICABLE and at least one model status is ANALYZING; a result with
models [ANALYZING, NOT_APPLICABLE] is still-pending whatever its overall
status, and one whose models are all NOT_APPLICABLE with a non-ANALYZING
overall status is final. -/
theorem c6_still_pending_classification :
    (∀ result : DetectionResult,
      stillPending result = true ↔
        (result.status = "ANALYZING" ∨
          ((∀ m ∈ result.models, m.status = "ANALYZING" ∨ m.status = "NOT_APPLICABLE") ∧
            ∃ m ∈ result.models, m.status = "ANALYZING"))) ∧
    (∀ s : String, s ≠ "ANALYZING" →
      stillPending ⟨"r", s, none,
        [⟨"m1", "ANALYZING", none⟩, ⟨"m2", "NOT_APPLICABLE", none⟩]⟩ = true) ∧
    stillPending ⟨"r", "AUTHENTIC", none,
      [⟨"m1", "NOT_APPLICABLE", none⟩, ⟨"m2", "NOT_APPLICABLE", none⟩]⟩ = false := by
  refine ⟨?_, ?_, by decide⟩
  · intro result
    obtain ⟨h1, h2⟩ := modelsScan_char result.models false
    simp only [stillPending, Bool.or_eq_true, Bool.and_eq_true, decide_eq_true_eq]
    constructor
    · rintro (h | ⟨ha, hb⟩)
      · exact Or.inl h
      · refine Or.inr ⟨h1.mp ha, ?_⟩
        rcases (h2 ha).mp hb with h | h
        · simp at h
        · exact h
    · rintro (h | ⟨hall, hex⟩)
      · exact Or.inl h
      · have ha := h1.mpr hall
        exact Or.inr ⟨ha, (h2 ha).mpr (Or.inr hex)⟩
  · intro s _
    simp [stillPending, modelsScan]

/-- Witness for C6 at a concrete non-ANALYZING overall status. -/
theorem c6_still_pending_classification_witness :
    stillPending ⟨"r", "AUTHENTIC", none,
      [⟨"m1", "ANALYZING", none⟩, ⟨"m2", "NOT_APPLICABLE", none⟩]⟩ = true :=
  c6_still_pending_classification.2.1 "AUTHENTIC" (by decide)

/-- Claim C7 (amended): a missing score stays missing; a present raw
score v maps to v/100 when v > 1 and to v otherwise, independently for
the overall score and every model score; the formatted value lies in
[0, 1] whenever the raw value lies in [0, 100] (raw values above 100 or
below 0 land outside the unit interval). -/
theorem c7_score_normalization :
    (∀ response : MediaResponse,
      (FormatResult response).score = response.finalScore.map normalizeScore ∧
      (FormatResult response).models.map ModelResult.score
        = response.models.map fun m => m.finalScore.map normalizeScore) ∧
    (∀ v : ℚ,
      (1 < v → normalizeScore v = v / 100) ∧
      (v ≤ 1 → normalizeScore v = v) ∧
      (0 ≤ v → v ≤ 100 → 0 ≤ normalizeScore v ∧ normalizeScore v ≤ 1)) := by
  constructor
  · intro response
    exact ⟨rfl, by simp [FormatResult]⟩
  · intro v
    refine ⟨?_, ?_, ?_⟩
    · intro h; simp [normalizeScore, h]
    · intro h; simp [normalizeScore, not_lt.mpr h]
    · intro h0 h100
      by_cases h1 : 1 < v
      · simp only [normalizeScore, h1, if_true]
        constructor
        · positivity
        · rw [div_le_one (by norm_num : (0:ℚ) < 100)]
          exact h100
      · simp only [normalizeScore, h1, if_false]
        exact ⟨h0, le_of_not_lt h1⟩

/-- Witness for C7 at the raw score 1/2. -/
theorem c7_score_normalization_witness :
    normalizeScore (1 / 2) = 1 / 2 ∧
    (0 ≤ normalizeScore (1 / 2) ∧ normalizeScore (1 / 2) ≤ 1) :=
  ⟨(c7_score_normalization.2 (1 / 2)).2.1 (by norm_num),
    (c7_score_normalization.2 (1 / 2)).2.2 (by norm_num) (by norm_num)⟩

/-- Counterexample to C7 as stated: the raw overall score 200 formats to
2, which is outside the closed unit interval. -/
theorem c7_range_counterexample :
    (FormatResult ⟨"r", "AUTHENTIC", some 200, []⟩).score = some 2 ∧
    ¬ ((2 : ℚ) ≤ 1) := by
  constructor
  · norm_num [FormatResult, normalizeScore]
  · norm_num

/-- Claim C8: FormatResult rewrites the literal status "FAKE" to
"MANIPULATED", identically for the overall status and every model
status, and passes every other status string through unchanged, never
rejecting any status string. -/
theorem c8_status_rewrite :
    (∀ response : MediaResponse,
      (FormatResult response).status = rewriteStatus response.summaryStatus ∧
      (FormatResult response).models.map ModelResult.status
        = response.models.map fun m => rewriteStatus m.status) ∧
    rewriteStatus "FAKE" = "MANIPULATED" ∧
    (∀ s : String, s ≠ "FAKE" → rewriteStatus s = s) ∧
    rewriteStatus "ANALYZING" = "ANALYZING" ∧
    rewriteStatus "NOT_APPLICABLE" = "NOT_APPLICABLE" ∧
    rewriteStatus "ERROR" = "ERROR" := by
  refine ⟨?_, by decide, ?_, by decide, by decide, by decide⟩
  · intro response
    exact ⟨rfl, by simp [FormatResult]⟩
  · intro s hs
    simp [rewriteStatus, hs]

/-- Witness for C8 at the unknown vendor status "AUTHENTIC". -/
theorem c8_status_rewrite_witness :
    rewriteStatus "AUTHENTIC" = "AUTHENTIC" :=
  c8_status_rewrite.2.2.1 "AUTHENTIC" (by decide)


/-- Claim C5: in mode A, for every maxAttempts m > 0, when every fetch
succeeds with a still-pending payload and the context never fires, the
call performs exactly m fetches and returns the last-fetched
still-pending result as a successful outcome. -/
theorem c5_mode_a_exhaustion_returns_pending :
    ∀ (env : Env) (m interval : Int), 0 < m →
      (∀ n, ∃ resp, env.fetch n = .ok resp ∧ stillPending (FormatResult resp) = true) →
      (∀ n, env.ctxDone n = false) →
      (getDetectionResultFn env ⟨m, interval⟩).nf = m.toNat ∧
      ∃ resp, env.fetch (m.toNat - 1) = .ok resp ∧
        (getDetectionResultFn env ⟨m, interval⟩).out = .ok (FormatResult resp) := by
  intro env m interval hm hfetch hctx
  simp only [getDetectionResultFn, getDetectionResultFrom]
  rw [if_neg (by omega : ¬ m ≤ 0)]
  have := loopA_all_pending env hfetch hctx m.toNat 0 0 (by omega)
  simpa using this

/-- Witness for C5: three always-ANALYZING fetches, returned as success. -/
theorem c5_mode_a_exhaustion_returns_pending_witness :
    (getDetectionResultFn envAnalyzing ⟨3, 50⟩).nf = 3 ∧
    ∃ resp, envAnalyzing.fetch 2 = .ok resp ∧
      (getDetectionResultFn envAnalyzing ⟨3, 50⟩).out = .ok (FormatResult resp) := by
  have := c5_mode_a_exhaustion_returns_pending envAnalyzing 3 50 (by norm_num)
    (fun n => ⟨respAnalyzing, rfl, by decide⟩) (fun n => rfl)
  simpa using this

/-- Counterexample to C2 as stated: with maxAttempts 2 and a transport
always answering not_found, the call returns the not_found SDKError
itself after 2 fetches, whose code is not timeout. -/
theorem c2_not_found_exhaustion_counterexample :
    (getDetectionResultFn envNF ⟨2, 50⟩).out = .err (.sdk notFoundSdk) ∧
    (getDetectionResultFn envNF ⟨2, 50⟩).nf = 2 ∧
    notFoundSdk.code = ErrorCode.notFound ∧
    ErrorCode.notFound ≠ ErrorCode.timeout := by
  refine ⟨by decide, by decide, by decide, by decide⟩

/-- Claim C2 (amended): in mode A, for every maxAttempts m > 0, when
every fetch fails with a not_found SDKError and the context never fires,
the call performs exactly m fetches and returns the last not_found
SDKError itself, whose code is not_found, not timeout. -/
theorem c2_not_found_exhaustion_amended :
    ∀ (env : Env) (m interval : Int), 0 < m →
      (∀ n, ∃ e, env.fetch n = .fetchErr (.sdk e) ∧ e.code = ErrorCode.notFound) →
      (∀ n, env.ctxDone n = false) →
      (getDetectionResultFn env ⟨m, interval⟩).nf = m.toNat ∧
      ∃ e, env.fetch (m.toNat - 1) = .fetchErr (.sdk e) ∧
        (getDetectionResultFn env ⟨m, interval⟩).out = .err (.sdk e) ∧
        e.code = ErrorCode.notFound := by
  intro env m interval hm hfetch hctx
  simp only [getDetectionResultFn, getDetectionResultFrom]
  rw [if_neg (by omega : ¬ m ≤ 0)]
  have := loopA_all_notFound env hfetch hctx m.toNat 0 0 (by omega)
  simpa using this

/-- Witness for the amended C2 with maxAttempts 2. -/
theorem c2_not_found_exhaustion_amended_witness :
    (getDetectionResultFn envNF ⟨2, 50⟩).nf = 2 ∧
    ∃ e, envNF.fetch 1 = .fetchErr (.sdk e) ∧
      (getDetectionResultFn envNF ⟨2, 50⟩).out = .err (.sdk e) ∧
      e.code = ErrorCode.notFound := by
  have := c2_not_found_exhaustion_amended envNF 2 50 (by norm_num)
    (fun n => ⟨notFoundSdk, rfl, rfl⟩) (fun n => rfl)
  simpa using this

/-- Claim C10: after defaulting, the mode-A loop always starts with at
least one remaining attempt and every outcome is returned from inside the
loop, so the post-loop branch synthesizing the "exceeded maximum number
of polling attempts" timeout error is never taken; since no transport
error of the SDK carries the timeout code (the HTTP mapping never
produces it), mode A never returns an SDKError whose code is timeout. -/
theorem c10_mode_a_never_times_out :
    (∀ (env : Env) (o : GetResultOptions) (nf nc : Nat),
      (getDetectionResultFrom env o nf nc).postLoop = false) ∧
    (∀ (env : Env) (o : GetResultOptions),
      (∀ n e, env.fetch n = .fetchErr (.sdk e) → e.code ≠ ErrorCode.timeout) →
      ∀ e, (getDetectionResultFn env o).out = .err (.sdk e) →
        e.code ≠ ErrorCode.timeout) ∧
    (∀ statusCode : Int, handleResponseCode statusCode ≠ ErrorCode.timeout) := by
  have heff : ∀ o : GetResultOptions,
      1 ≤ (if o.maxAttempts ≤ 0 then defaultMaxAttempts else o.maxAttempts).toNat := by
    intro o
    by_cases h : o.maxAttempts ≤ 0
    · simp [h, defaultMaxAttempts]
    · rw [if_neg h]; omega
  refine ⟨?_, ?_, ?_⟩
  · intro env o nf nc
    exact loopA_postLoop env _ nf nc (heff o)
  · intro env o henv
    exact loopA_not_timeout env henv _ 0 0 (heff o)
  · intro statusCode
    unfold handleResponseCode
    split_ifs <;> decide

/-- Witness for C10 against the always-404 transport. -/
theorem c10_mode_a_never_times_out_witness :
    ErrorCode.notFound ≠ ErrorCode.timeout := by
  refine c10_mode_a_never_times_out.2.1 envNF ⟨2, 50⟩ ?_ notFoundSdk (by decide)
  intro n e he
  injection he with h
  injection h with h2
  rw [← h2]
  decide

/-- Claim C9: On appends the handler to the ordered list of its event
name and leaves other names untouched; emit invokes exactly the handlers
registered for that name, in registration order, each with the payload,
and is a no-op on a name with no registered handlers. -/
theorem c9_event_dispatcher :
    (∀ (α : Type) (registry : Handlers α) (event : String) (handler : α),
      findHandlers (On registry event handler) event
        = some (((findHandlers registry event).getD []) ++ [handler])) ∧
    (∀ (α : Type) (registry : Handlers α) (event other : String) (handler : α),
      other ≠ event →
      findHandlers (On registry event handler) other = findHandlers registry other) ∧
    (∀ (α β : Type) (registry : Handlers α) (event : String) (payload : β),
      emitRun registry event payload
        = ((findHandlers registry event).getD []).map fun h => (h, payload)) ∧
    (∀ (α β : Type) (registry : Handlers α) (event : String) (payload : β),
      findHandlers registry event = none → emitRun registry event payload = []) := by
  refine ⟨?_, ?_, ?_, ?_⟩
  · intro α registry event handler
    induction registry with
    | nil => simp [On, findHandlers]
    | cons entry rest ih =>
      obtain ⟨name, hs⟩ := entry
      by_cases h : name = event
      · simp [On, findHandlers, h]
      · simp [On, findHandlers, h, ih]
  · intro α registry event other handler hne
    induction registry with
    | nil => simp [On, findHandlers, Ne.symm hne]
    | cons entry rest ih =>
      obtain ⟨name, hs⟩ := entry
      by_cases h : name = event
      · subst h
        simp [On, findHandlers, Ne.symm hne]
      · by_cases h2 : name = other
        · subst h2
          simp [On, findHandlers, h]
        · simp [On, findHandlers, h, h2, ih]
  · intro α β registry event payload
    unfold emitRun
    cases h : findHandlers registry event <;> simp [h]
  · intro α β registry event payload h
    unfold emitRun
    rw [h]

/-- Witness for C9: registering under "error" leaves "result" untouched,
and emitting an unregistered name invokes nothing. -/
theorem c9_event_dispatcher_witness :
    findHandlers (On ([("result", [1])] : Handlers Nat) "error" 2) "result"
      = findHandlers ([("result", [1])] : Handlers Nat) "result" ∧
    emitRun ([] : Handlers Nat) "error" (0 : Nat) = [] :=
  ⟨c9_event_dispatcher.2.1 Nat [("result", [1])] "error" "result" 2 (by decide),
    c9_event_dispatcher.2.2.2 Nat Nat [] "error" 0 rfl⟩


/-- Counterexample to C1 as stated: with interval 10 and timeout 10 over
an always-404 transport, the single mode-B iteration performs 30 fetches
(the nested GetResult retries internally), and the not_found error is
never emitted nor returned; the call instead emits and returns the
polling-timeout SDKError. -/
theorem c1_single_fetch_counterexample :
    (pollForResultsFn envNF 10 10).nf = 30 ∧
    (pollForResultsFn envNF 10 10).out = .errored (.sdk pollTimeoutErr) ∧
    eventsOf (pollForResultsFn envNF 10 10).tr
      = [("error", none, some (.sdk pollTimeoutErr))] ∧
    (30 : Nat) ≠ 1 := by
  refine ⟨by decide, by decide, by decide, by decide⟩

/-- Claim C1 (amended): each mode-B iteration performs one GetResult
call, which retries internally; the inner call emits no event; a
not_found error from it makes the loop continue with elapsed increased,
emitting nothing, while any other fetch error is emitted as a single
"error" event and returned as the terminal outcome with no further
fetch. -/
theorem c1_mode_b_iteration :
    (∀ (env : Env) (o : GetResultOptions) (nf nc : Nat),
      eventsOf (getDetectionResultFrom env o nf nc).tr = []) ∧
    (∀ (env : Env) (i mw el : Int) (fuel : Nat) (nf nc : Nat),
      el < mw → env.ctxDone nc = false →
      ∀ e, (getDetectionResultFrom env ⟨0, 0⟩ nf (nc + 1)).out = .err e →
        (isNotFoundErr e = true →
          (loopB env i mw (fuel + 1) el nf nc).out
            = (loopB env i mw fuel (el + i)
                (getDetectionResultFrom env ⟨0, 0⟩ nf (nc + 1)).nf
                (getDetectionResultFrom env ⟨0, 0⟩ nf (nc + 1)).nc).out ∧
          eventsOf (loopB env i mw (fuel + 1) el nf nc).tr
            = eventsOf (loopB env i mw fuel (el + i)
                (getDetectionResultFrom env ⟨0, 0⟩ nf (nc + 1)).nf
                (getDetectionResultFrom env ⟨0, 0⟩ nf (nc + 1)).nc).tr) ∧
        (isNotFoundErr e = false →
          (loopB env i mw (fuel + 1) el nf nc).out = .errored e ∧
          (loopB env i mw (fuel + 1) el nf nc).nf
            = (getDetectionResultFrom env ⟨0, 0⟩ nf (nc + 1)).nf ∧
          eventsOf (loopB env i mw (fuel + 1) el nf nc).tr
            = [("error", none, some e)])) := by
  refine ⟨getFrom_events, ?_⟩
  intro env i mw el fuel nf nc hel hc e hout
  constructor
  · intro hnf
    have hstep : loopB env i mw (fuel + 1) el nf nc
        = { loopB env i mw fuel (el + i)
              (getDetectionResultFrom env ⟨0, 0⟩ nf (nc + 1)).nf
              (getDetectionResultFrom env ⟨0, 0⟩ nf (nc + 1)).nc with
            tr := Action.check false :: (getDetectionResultFrom env ⟨0, 0⟩ nf (nc + 1)).tr
              ++ (loopB env i mw fuel (el + i)
                  (getDetectionResultFrom env ⟨0, 0⟩ nf (nc + 1)).nf
                  (getDetectionResultFrom env ⟨0, 0⟩ nf (nc + 1)).nc).tr } := by
      simp only [loopB, hel, if_true, hc, Bool.false_eq_true, if_false, hout, hnf]
    rw [hstep]
    exact ⟨rfl, by simp [eventsOf, List.append_eq, eventsOf_append, getFrom_events]⟩
  · intro hnf
    have hstep : loopB env i mw (fuel + 1) el nf nc
        = { out := .errored e,
            nf := (getDetectionResultFrom env ⟨0, 0⟩ nf (nc + 1)).nf,
            nc := (getDetectionResultFrom env ⟨0, 0⟩ nf (nc + 1)).nc,
            tr := Action.check false :: (getDetectionResultFrom env ⟨0, 0⟩ nf (nc + 1)).tr
              ++ [Action.emitError e] } := by
      simp only [loopB, hel, if_true, hc, Bool.false_eq_true, if_false, hout, hnf]
    rw [hstep]
    exact ⟨rfl, rfl, by simp [eventsOf, List.append_eq, eventsOf_append, getFrom_events]⟩

/-- Witness for the amended C1: a server error surfacing from the inner
GetResult is emitted once and terminal. -/
theorem c1_mode_b_iteration_witness :
    (loopB envServerErr 10 50 6 0 0 0).out = .errored (.sdk serverSdk) ∧
    eventsOf (loopB envServerErr 10 50 6 0 0 0).tr
      = [("error", none, some (.sdk serverSdk))] := by
  have h := c1_mode_b_iteration.2 envServerErr 10 50 0 5 0 0 (by norm_num) rfl
    (.sdk serverSdk) (by decide)
  have h2 := h.2 (by decide)
  exact ⟨h2.1, h2.2.2⟩

/-- Counterexample to C3 as stated: through the public PollForResults a
zero Timeout is replaced by the default, so the call fetches once, emits
a "result" event and returns success instead of immediately emitting a
timeout error without fetching. -/
theorem c3_zero_timeout_counterexample :
    (PollForResultsFn envOK (some ⟨50, 0⟩)).out = .success ∧
    (PollForResultsFn envOK (some ⟨50, 0⟩)).nf = 1 ∧
    eventsOf (PollForResultsFn envOK (some ⟨50, 0⟩)).tr
      = [("result", some (FormatResult respAuthentic), none)] := by
  refine ⟨by decide, by decide, by decide⟩

/-- Claim C3 (amended): the public PollForResults replaces a non-positive
Timeout with the 60000 ms default and polls normally; only the internal
pollForResults, entered directly with a non-positive timeout, immediately
emits a single "error" event carrying an SDKError with code timeout and
returns, with no fetch, a plain "polling timeout exceeded" error that is
a different value from the emitted SDKError. -/
theorem c3_timeout_guard :
    (∀ (env : Env) (o : PollOptions), o.timeout ≤ 0 →
      PollForResultsFn env (some o)
        = pollForResultsFn env
            (if o.pollingInterval > 0 then o.pollingInterval else DefaultPollingInterval)
            DefaultTimeout) ∧
    (∀ (env : Env) (pollingInterval timeout : Int), timeout ≤ 0 →
      (pollForResultsFn env pollingInterval timeout).out
          = .errored (.plain "polling timeout exceeded") ∧
      (pollForResultsFn env pollingInterval timeout).nf = 0 ∧
      eventsOf (pollForResultsFn env pollingInterval timeout).tr
        = [("error", none, some (.sdk pollTimeoutErr))] ∧
      GoErr.plain "polling timeout exceeded" ≠ GoErr.sdk pollTimeoutErr) := by
  constructor
  · intro env o h
    simp [PollForResultsFn, show ¬ o.timeout > 0 from by omega]
  · intro env pollingInterval timeout h
    refine ⟨?_, ?_, ?_, by decide⟩ <;> simp [pollForResultsFn, h, eventsOf]

/-- Witness for the amended C3 at timeout 0. -/
theorem c3_timeout_guard_witness :
    (pollForResultsFn envOK 10 0).out = .errored (.plain "polling timeout exceeded") ∧
    eventsOf (pollForResultsFn envOK 10 0).tr
      = [("error", none, some (.sdk pollTimeoutErr))] := by
  have h := c3_timeout_guard.2 envOK 10 0 (by norm_num)
  exact ⟨h.1, h.2.2.1⟩

/-- Counterexample to C4 as stated: cancellation observed during the
nested GetResult wait of a mode-B poll is emitted as an "error" event,
so a cancelled poll does not always emit no event. -/
theorem c4_cancelled_emit_counterexample :
    (pollForResultsFn envCancelInner 10 50).out = .errored .ctxCanceled ∧
    eventsOf (pollForResultsFn envCancelInner 10 50).tr
      = [("error", none, some GoErr.ctxCanceled)] ∧
    ¬ eventsOf (pollForResultsFn envCancelInner 10 50).tr = [] := by
  refine ⟨by decide, by decide, by decide⟩

/-- One mode-B step that observes cancellation at the loop's own check:
no fetch, no event, cancellation returned. -/
lemma loopB_cancel_at_check (env : Env) (i mw : Int) (fuel : Nat) (el : Int) (nf nc : Nat)
    (hel : el < mw) (hc : env.ctxDone nc = true) :
    loopB env i mw (fuel + 1) el nf nc
      = { out := .errored .ctxCanceled, nf := nf, nc := nc + 1, tr := [.check true] } := by
  simp [loopB, hel, hc]

/-- Claim C4 (amended): in both modes no fetch happens after a context
check observes cancellation; in mode B, cancellation observed at the
loop's own pre-fetch check returns the cancellation error with no fetch
and no event, while a cancelled run in general emits either no event or
exactly one "error" event carrying the cancellation error (the latter
when cancellation surfaces through the nested GetResult), never a
"result" event. -/
theorem c4_cancellation :
    (∀ (env : Env) (o : GetResultOptions),
      noFetchAfterDone false (getDetectionResultFn env o).tr = true) ∧
    (∀ (env : Env) (pollingInterval timeout : Int),
      noFetchAfterDone false (pollForResultsFn env pollingInterval timeout).tr = true) ∧
    (∀ (env : Env) (pollingInterval timeout : Int),
      (pollForResultsFn env pollingInterval timeout).out = .errored .ctxCanceled →
      eventsOf (pollForResultsFn env pollingInterval timeout).tr = [] ∨
      eventsOf (pollForResultsFn env pollingInterval timeout).tr
        = [("error", none, some GoErr.ctxCanceled)]) ∧
    (∀ (env : Env) (pollingInterval timeout : Int),
      0 < timeout → env.ctxDone 0 = true →
      pollForResultsFn env pollingInterval timeout
        = { out := .errored .ctxCanceled, nf := 0, nc := 1, tr := [.check true] }) := by
  refine ⟨?_, ?_, ?_, ?_⟩
  · intro env o
    exact getFrom_noFetchAfterDone env o 0 0
  · intro env pollingInterval timeout
    by_cases h : timeout ≤ 0
    · simp [pollForResultsFn, h, noFetchAfterDone]
    · simp only [pollForResultsFn, h, if_false]
      exact loopB_noFetchAfterDone env pollingInterval timeout _ 0 0 0
  · intro env pollingInterval timeout hout
    by_cases h : timeout ≤ 0
    · simp [pollForResultsFn, h] at hout
    · simp only [pollForResultsFn, h, if_false] at hout ⊢
      exact loopB_cancel_events env pollingInterval timeout _ 0 0 0 hout
  · intro env pollingInterval timeout ht hc
    simp only [pollForResultsFn, show ¬ timeout ≤ 0 from by omega, if_false]
    exact loopB_cancel_at_check env pollingInterval timeout timeout.toNat 0 0 0 ht hc

/-- Witness for the amended C4: cancellation already fired at entry. -/
theorem c4_cancellation_witness :
    pollForResultsFn envCancelAtStart 10 50
      = { out := .errored .ctxCanceled, nf := 0, nc := 1, tr := [.check true] } :=
  c4_cancellation.2.2.2 envCancelAtStart 10 50 (by norm_num) rfl

end RDSDK
